import Mathlib

/-!
Shallow embedding of the toolset registry core of the github-mcp-server
repository: the `Toolset` / `ToolsetGroup` state model (pkg/toolsets) and
the three dynamic-discovery capability handlers (pkg/github/dynamic_tools.go),
plus the startup wiring `InitToolsets`.

Conventions of the embedding:
- Go slices become `List`; the Go `map[string]*Toolset` becomes an
  association list `List (String × Toolset)` with `mapInsert` / `mapLookup`
  modelling map assignment and indexing (unique keys by construction).
- Pointer mutation becomes explicit state passing: operations return the
  updated value.
- `mcp.Tool` descriptors keep only the fields the core reads (Name,
  Description); handler functions are opaque to the core and are dropped.
- The host `server.MCPServer` is modelled by the lists of tools and resource
  templates that have been registered with it, in registration order.
-/

/-- mcp.Tool: the descriptor part read by this core (Name, Description). -/
structure Tool where
  name : String
  description : String
deriving DecidableEq, Repr

/-- server.ServerTool: a (descriptor, handler) pair; the handler is opaque. -/
structure ServerTool where
  tool : Tool
deriving DecidableEq, Repr

/-- toolsets.ResourceTemplate: a (template-descriptor, handler) pair; both are
opaque to the core, kept as an identifier. -/
structure ResourceTemplate where
  templateResource : String
deriving DecidableEq, Repr

/-- The host MCP server, modelled by what has been registered on it. -/
structure MCPServer where
  tools : List ServerTool
  resourceTemplates : List ResourceTemplate
deriving DecidableEq, Repr

/-- server.MCPServer.AddTool: register one capability. -/
def MCPServer.AddTool (s : MCPServer) (t : ServerTool) : MCPServer :=
  { s with tools := s.tools ++ [t] }

/-- server.MCPServer.AddTools: the bulk registration primitive. -/
def MCPServer.AddTools (s : MCPServer) (ts : List ServerTool) : MCPServer :=
  { s with tools := s.tools ++ ts }

/-- server.MCPServer.AddResourceTemplate: register one resource template. -/
def MCPServer.AddResourceTemplate (s : MCPServer) (r : ResourceTemplate) : MCPServer :=
  { s with resourceTemplates := s.resourceTemplates ++ [r] }

/-- Association-list model of Go map assignment `m[k] = v`: replaces the
binding in place when the key exists, appends otherwise. -/
def mapInsert {α : Type} (k : String) (v : α) : List (String × α) → List (String × α)
  | [] => [(k, v)]
  | (k', v') :: rest => if k = k' then (k, v) :: rest else (k', v') :: mapInsert k v rest

/-- Association-list model of Go map indexing `m[k]` (nil / zero value on a
missing key becomes `none`). -/
def mapLookup {α : Type} (k : String) : List (String × α) → Option α
  | [] => none
  | (k', v') :: rest => if k = k' then some v' else mapLookup k rest

/-- toolsets.Toolset. -/
structure Toolset where
  Name : String
  Description : String
  Enabled : Bool
  readOnly : Bool
  writeTools : List ServerTool
  readTools : List ServerTool
  resourceTemplates : List ResourceTemplate
deriving DecidableEq, Repr

/-- toolsets.NewToolset. -/
def NewToolset (name description : String) : Toolset :=
  { Name := name
    Description := description
    Enabled := false
    readOnly := false
    writeTools := []
    readTools := []
    resourceTemplates := [] }

/-- Toolset.GetActiveTools (a nil Go slice is the empty list). -/
def Toolset.GetActiveTools (t : Toolset) : List ServerTool :=
  if t.Enabled then
    if t.readOnly then t.readTools
    else t.readTools ++ t.writeTools
  else []

/-- Toolset.GetAvailableTools. -/
def Toolset.GetAvailableTools (t : Toolset) : List ServerTool :=
  if t.readOnly then t.readTools
  else t.readTools ++ t.writeTools

/-- Toolset.RegisterTools: registers each read tool, then (if not read-only)
each write tool, each through AddTool, then each resource template. -/
def Toolset.RegisterTools (t : Toolset) (s : MCPServer) : MCPServer :=
  if !t.Enabled then s
  else
    let s1 := t.readTools.foldl MCPServer.AddTool s
    let s2 := if !t.readOnly then t.writeTools.foldl MCPServer.AddTool s1 else s1
    t.resourceTemplates.foldl MCPServer.AddResourceTemplate s2

/-- Toolset.SetReadOnly. -/
def Toolset.SetReadOnly (t : Toolset) : Toolset :=
  { t with readOnly := true }

/-- Toolset.AddWriteTools: silently ignored when the toolset is read-only. -/
def Toolset.AddWriteTools (t : Toolset) (tools : List ServerTool) : Toolset :=
  if !t.readOnly then { t with writeTools := t.writeTools ++ tools }
  else t

/-- Toolset.AddReadTools. -/
def Toolset.AddReadTools (t : Toolset) (tools : List ServerTool) : Toolset :=
  { t with readTools := t.readTools ++ tools }

/-- Toolset.AddTemplateResources. -/
def Toolset.AddTemplateResources (t : Toolset) (resources : List ResourceTemplate) : Toolset :=
  { t with resourceTemplates := t.resourceTemplates ++ resources }

/-- toolsets.ToolsetGroup. -/
structure ToolsetGroup where
  Toolsets : List (String × Toolset)
  everythingOn : Bool
  readOnly : Bool
deriving DecidableEq, Repr

/-- toolsets.NewToolsetGroup. -/
def NewToolsetGroup (readOnly : Bool) : ToolsetGroup :=
  { Toolsets := [], everythingOn := false, readOnly := readOnly }

/-- ToolsetGroup.AddToolset. -/
def ToolsetGroup.AddToolset (tg : ToolsetGroup) (ts : Toolset) : ToolsetGroup :=
  let ts := if tg.readOnly then ts.SetReadOnly else ts
  { tg with Toolsets := mapInsert ts.Name ts tg.Toolsets }

/-- ToolsetGroup.IsEnabled. -/
def ToolsetGroup.IsEnabled (tg : ToolsetGroup) (name : String) : Bool :=
  if tg.everythingOn then true
  else
    match mapLookup name tg.Toolsets with
    | none => false
    | some feature => feature.Enabled

/-- ToolsetGroup.EnableToolset: returns the updated group and the Go error
value (`none` on success). -/
def ToolsetGroup.EnableToolset (tg : ToolsetGroup) (name : String) :
    ToolsetGroup × Option String :=
  if name = "all" then ({ tg with everythingOn := true }, none)
  else
    match mapLookup name tg.Toolsets with
    | none => (tg, some ("toolset " ++ name ++ " does not exist"))
    | some toolset =>
        ({ tg with Toolsets := mapInsert name { toolset with Enabled := true } tg.Toolsets },
          none)

/-- ToolsetGroup.EnableToolsets: sequential, fail-fast on the first error. -/
def ToolsetGroup.EnableToolsets (tg : ToolsetGroup) : List String → ToolsetGroup × Option String
  | [] => (tg, none)
  | name :: rest =>
      match tg.EnableToolset name with
      | (tg1, none) => tg1.EnableToolsets rest
      | (tg1, some e) => (tg1, some e)

/-- ToolsetGroup.RegisterTools: registers every member toolset. -/
def ToolsetGroup.RegisterTools (tg : ToolsetGroup) (s : MCPServer) : MCPServer :=
  tg.Toolsets.foldl (fun s p => p.2.RegisterTools s) s

/-!
Model of Go encoding/json marshalling of `map[string]bool` and
`map[string]string`: keys are emitted in sorted order; strings are quoted
(escaping covers the quote and backslash characters, which suffices for the
identifiers this system emits). A non-nil empty map marshals to the empty
object, never to null.
-/

/-- Insert a binding into a key-sorted association list, keeping it sorted. -/
def insertSortedByKey {α : Type} (p : String × α) :
    List (String × α) → List (String × α)
  | [] => [p]
  | q :: qs => if p.1 ≤ q.1 then p :: q :: qs else q :: insertSortedByKey p qs

/-- Sort an association list by key, as Go json.Marshal does for maps. -/
def sortByKey {α : Type} (l : List (String × α)) : List (String × α) :=
  l.foldr insertSortedByKey []

/-- JSON string escaping for the characters this system can emit. -/
def escapeJsonChar (c : Char) : String :=
  if c = '"' then "\\\""
  else if c = '\\' then "\\\\"
  else String.singleton c

/-- A JSON string literal. -/
def jsonQuote (s : String) : String :=
  "\"" ++ String.join (s.toList.map escapeJsonChar) ++ "\""

/-- json.Marshal of a map[string]bool (already key-sorted). -/
def jsonOfBoolMap (l : List (String × Bool)) : String :=
  "\x7b" ++ String.intercalate ","
    (l.map (fun p => jsonQuote p.1 ++ ":" ++ (if p.2 then "true" else "false"))) ++ "\x7d"

/-- json.Marshal of a map[string]string (already key-sorted). -/
def jsonOfStringMap (l : List (String × String)) : String :=
  "\x7b" ++ String.intercalate ","
    (l.map (fun p => jsonQuote p.1 ++ ":" ++ jsonQuote p.2)) ++ "\x7d"

/-- mcp.CallToolResult, reduced to what the handlers produce: an error flag
and the text content. -/
structure CallToolResult where
  isError : Bool
  text : String
deriving DecidableEq, Repr

/-- mcp.NewToolResultError. -/
def NewToolResultError (msg : String) : CallToolResult :=
  { isError := true, text := msg }

/-- mcp.NewToolResultText. -/
def NewToolResultText (msg : String) : CallToolResult :=
  { isError := false, text := msg }

/-!
The three dynamic-discovery handlers of pkg/github/dynamic_tools.go. Each Go
handler closes over the host server and/or the toolset group and mutates them
through pointers; here the mutated state is passed and returned explicitly.
The `toolset` request argument is modelled after extraction by
`requiredParam` (a missing parameter is rejected upstream of these lookups).
-/

/-- Handler of EnableToolset (dynamic_tools.go): looks the toolset up, reports
not-found or already-enabled, otherwise flips Enabled and pushes the active
tools to the host server via the bulk AddTools primitive. Returns the result
together with the updated server and group. -/
def EnableToolsetHandler (s : MCPServer) (tg : ToolsetGroup) (toolsetName : String) :
    CallToolResult × MCPServer × ToolsetGroup :=
  match mapLookup toolsetName tg.Toolsets with
  | none => (NewToolResultError ("Toolset " ++ toolsetName ++ " not found"), s, tg)
  | some toolset =>
      if toolset.Enabled then
        (NewToolResultText ("Toolset " ++ toolsetName ++ " is already enabled"), s, tg)
      else
        let toolset := { toolset with Enabled := true }
        let tg := { tg with Toolsets := mapInsert toolsetName toolset tg.Toolsets }
        (NewToolResultText ("Toolset " ++ toolsetName ++ " enabled"),
          s.AddTools toolset.GetActiveTools, tg)

/-- The feature map built by the ListAvailableToolsets handler:
name ↦ IsEnabled(name) over every key of the group. -/
def featureMap (tg : ToolsetGroup) : List (String × Bool) :=
  tg.Toolsets.foldl (fun m p => mapInsert p.1 (tg.IsEnabled p.1) m) []

/-- Handler of ListAvailableToolsets (dynamic_tools.go): serializes the
feature map; json.Marshal of a map[string]bool cannot fail. -/
def ListAvailableToolsetsHandler (tg : ToolsetGroup) : CallToolResult :=
  NewToolResultText (jsonOfBoolMap (sortByKey (featureMap tg)))

/-- The tool map built by the GetToolsetsTools handler:
Tool.Name ↦ Tool.Description over the active tools. -/
def buildToolMap (l : List ServerTool) : List (String × String) :=
  l.foldl (fun m st => mapInsert st.tool.name st.tool.description m) []

/-- Handler of GetToolsetsTools (dynamic_tools.go): not-found on a missing
name, otherwise serializes identifier ↦ description over GetActiveTools. -/
def GetToolsetsToolsHandler (tg : ToolsetGroup) (toolsetName : String) : CallToolResult :=
  match mapLookup toolsetName tg.Toolsets with
  | none => NewToolResultError ("Toolset " ++ toolsetName ++ " not found")
  | some toolset =>
      NewToolResultText (jsonOfStringMap (sortByKey (buildToolMap toolset.GetActiveTools)))

/-!
InitToolsets (pkg/github/init — src/unnamed/part_001). The per-domain
capability constructors (GetMe, SearchRepositories, …) are external
collaborators outside this core: each variadic AddReadTools / AddWriteTools /
AddTemplateResources argument list appears here as a list parameter holding
those constructor results, opaque to the core. The toolset names,
descriptions, wiring order and the final EnableToolsets call are translated
verbatim.
-/

/-- InitToolsets: builds the fixed toolset group, adds the dynamic toolset
last, then enables the requested toolsets (error aborts with nil group). -/
def InitToolsets
    (contextReadTools : List ServerTool)
    (repoTemplateResources : List ResourceTemplate)
    (reposReadTools reposWriteTools : List ServerTool)
    (issuesReadTools issuesWriteTools : List ServerTool)
    (searchReadTools : List ServerTool)
    (pullRequestsReadTools pullRequestsWriteTools : List ServerTool)
    (codeSecurityReadTools : List ServerTool)
    (dynamicReadTools : List ServerTool)
    (passedToolsets : List String) (readOnly : Bool) : Except String ToolsetGroup :=
  let tsg := NewToolsetGroup readOnly
  let contextTools := (NewToolset "context"
    "Tools that provide context about the current user and GitHub context you are operating in").AddReadTools
      contextReadTools
  let repos := (((NewToolset "repos" "GitHub Repository related tools").AddTemplateResources
      repoTemplateResources).AddReadTools reposReadTools).AddWriteTools reposWriteTools
  let issues := ((NewToolset "issues" "GitHub Issues related tools").AddReadTools
      issuesReadTools).AddWriteTools issuesWriteTools
  let search := (NewToolset "search" "GitHub Search related tools").AddReadTools
      searchReadTools
  let pullRequests := ((NewToolset "pull_requests" "GitHub Pull Request related tools").AddReadTools
      pullRequestsReadTools).AddWriteTools pullRequestsWriteTools
  let codeSecurity := (NewToolset "code_security"
      "Code security related tools, such as GitHub Code Scanning").AddReadTools
      codeSecurityReadTools
  let experiments := NewToolset "experiments"
      "Experimental features that are not considered stable yet"
  let tsg := tsg.AddToolset contextTools
  let tsg := tsg.AddToolset repos
  let tsg := tsg.AddToolset issues
  let tsg := tsg.AddToolset search
  let tsg := tsg.AddToolset pullRequests
  let tsg := tsg.AddToolset codeSecurity
  let tsg := tsg.AddToolset experiments
  let dynamicToolSelection := (NewToolset "dynamic"
      "Discover GitHub MCP tools that can help achieve tasks by enabling additional sets of tools, you can control the enablement of any toolset to access its tools when this toolset is enabled.").AddReadTools
      dynamicReadTools
  let tsg := tsg.AddToolset dynamicToolSelection
  match tsg.EnableToolsets passedToolsets with
  | (tsg, none) => Except.ok tsg
  | (_, some e) => Except.error e

/-!
Mutation vocabulary of a Toolset (the four public mutators), used to state
order-dependent invariants over arbitrary call sequences.
-/

/-- One call to a public Toolset mutator. -/
inductive ToolsetOp where
  | addRead (tools : List ServerTool)
  | addWrite (tools : List ServerTool)
  | addTemplates (resources : List ResourceTemplate)
  | setReadOnly
deriving Repr

/-- Apply one mutator call. -/
def Toolset.applyOp (t : Toolset) : ToolsetOp → Toolset
  | ToolsetOp.addRead tools => t.AddReadTools tools
  | ToolsetOp.addWrite tools => t.AddWriteTools tools
  | ToolsetOp.addTemplates resources => t.AddTemplateResources resources
  | ToolsetOp.setReadOnly => t.SetReadOnly

/-- Apply a sequence of mutator calls, left to right. -/
def Toolset.applyOps (t : Toolset) : List ToolsetOp → Toolset
  | [] => t
  | op :: ops => (t.applyOp op).applyOps ops

/-! Sample data for concrete witnesses. -/

/-- A sample read capability. -/
def rTool : ServerTool := ⟨⟨"r1", "read tool one"⟩⟩

/-- A sample write capability. -/
def wTool : ServerTool := ⟨⟨"w1", "write tool one"⟩⟩

/-- A sample resource template. -/
def rt0 : ResourceTemplate := ⟨"repo template"⟩

/-- A sample toolset holding one read tool, not enabled. -/
def ts0 : Toolset := (NewToolset "t1" "demo").AddReadTools [rTool]

/-- ts0 after the enable flag flips. -/
def ts1 : Toolset := { ts0 with Enabled := true }

/-- A sample group holding ts0, not read-only. -/
def tg0 : ToolsetGroup := (NewToolsetGroup false).AddToolset ts0

/-- tg0 after ts0 was enabled through the dynamic handler. -/
def tg1 : ToolsetGroup := { tg0 with Toolsets := mapInsert "t1" ts1 tg0.Toolsets }

/-- An empty host server. -/
def s0 : MCPServer := ⟨[], []⟩

/-- s0 after ts1 went live. -/
def s1 : MCPServer := s0.AddTools ts1.GetActiveTools

/-- A sample enabled read/write toolset for registration witnesses. -/
def tsR : Toolset :=
  { (((NewToolset "t2" "demo2").AddReadTools [rTool]).AddWriteTools [wTool]).AddTemplateResources
      [rt0] with
    Enabled := true }

/-- The group InitToolsets yields with empty collaborator tool lists and no
pre-enabled toolsets. -/
def gInit : ToolsetGroup :=
  (InitToolsets [] [] [] [] [] [] [] [] [] [] [] [] false).toOption.getD (NewToolsetGroup false)

/-! Helper lemmas about the association-list map model. -/

theorem mapLookup_mapInsert_self {α : Type} (k : String) (v : α) (l : List (String × α)) :
    mapLookup k (mapInsert k v l) = some v := by
  induction l with
  | nil => simp [mapInsert, mapLookup]
  | cons p rest ih =>
      by_cases h : k = p.1
      · simp [mapInsert, mapLookup, h]
      · simp [mapInsert, mapLookup, h, ih]

theorem mapLookup_mapInsert_ne {α : Type} {k k' : String} (h : k ≠ k') (v : α)
    (l : List (String × α)) :
    mapLookup k (mapInsert k' v l) = mapLookup k l := by
  induction l with
  | nil => simp [mapInsert, mapLookup, h]
  | cons p rest ih =>
      by_cases h2 : k' = p.1
      · have h3 : k ≠ p.1 := fun hkp => h (hkp.trans h2.symm)
        simp [mapInsert, mapLookup, h2, h3]
      · by_cases h3 : k = p.1
        · simp [mapInsert, mapLookup, h2, h3]
        · simp [mapInsert, mapLookup, h2, h3, ih]

theorem keys_mapInsert {α : Type} (k : String) (v : α) (l : List (String × α)) :
    (mapInsert k v l).map Prod.fst =
      if k ∈ l.map Prod.fst then l.map Prod.fst else l.map Prod.fst ++ [k] := by
  induction l with
  | nil => simp [mapInsert]
  | cons p rest ih =>
      by_cases h : k = p.1
      · simp [mapInsert, h]
      · by_cases h2 : k ∈ rest.map Prod.fst
        · simp [mapInsert, h, ih, h2]
        · simp [mapInsert, h, ih, h2, Ne.symm h]

theorem mapLookup_eq_none_iff {α : Type} (k : String) (l : List (String × α)) :
    mapLookup k l = none ↔ k ∉ l.map Prod.fst := by
  induction l with
  | nil => simp [mapLookup]
  | cons p rest ih =>
      by_cases h : k = p.1
      · simp [mapLookup, h]
      · simp [mapLookup, h, ih]

theorem mem_keys_of_mapLookup_eq_some {α : Type} {k : String} {v : α}
    {l : List (String × α)} (h : mapLookup k l = some v) : k ∈ l.map Prod.fst := by
  by_contra hk
  rw [← mapLookup_eq_none_iff k l] at hk
  rw [h] at hk
  exact Option.noConfusion hk

/-! Helper lemmas about registration folds on the host server. -/

theorem foldl_AddTool (l : List ServerTool) :
    ∀ s : MCPServer, l.foldl MCPServer.AddTool s =
      { tools := s.tools ++ l, resourceTemplates := s.resourceTemplates } := by
  induction l with
  | nil => intro s; simp
  | cons t rest ih =>
      intro s
      simp [List.foldl_cons, ih, MCPServer.AddTool]

theorem foldl_AddResourceTemplate (l : List ResourceTemplate) :
    ∀ s : MCPServer, l.foldl MCPServer.AddResourceTemplate s =
      { tools := s.tools, resourceTemplates := s.resourceTemplates ++ l } := by
  induction l with
  | nil => intro s; simp
  | cons r rest ih =>
      intro s
      simp [List.foldl_cons, ih, MCPServer.AddResourceTemplate]

/-! Helper lemmas about toolset names under the builder operations. -/

@[simp]
theorem Toolset.Name_NewToolset (n d : String) : (NewToolset n d).Name = n := rfl

@[simp]
theorem Toolset.Name_AddReadTools (t : Toolset) (l : List ServerTool) :
    (t.AddReadTools l).Name = t.Name := rfl

@[simp]
theorem Toolset.Name_AddWriteTools (t : Toolset) (l : List ServerTool) :
    (t.AddWriteTools l).Name = t.Name := by
  unfold Toolset.AddWriteTools
  split <;> rfl

@[simp]
theorem Toolset.Name_AddTemplateResources (t : Toolset) (l : List ResourceTemplate) :
    (t.AddTemplateResources l).Name = t.Name := rfl

@[simp]
theorem Toolset.Name_SetReadOnly (t : Toolset) : t.SetReadOnly.Name = t.Name := rfl

/-! Helper lemmas about group operations and key sets. -/

theorem lookup_AddToolset_ne (tg : ToolsetGroup) (ts : Toolset) (k : String)
    (h : k ≠ ts.Name) :
    mapLookup k (tg.AddToolset ts).Toolsets = mapLookup k tg.Toolsets := by
  cases hr : tg.readOnly <;>
    simp [ToolsetGroup.AddToolset, hr, mapLookup_mapInsert_ne h]

theorem keys_AddToolset (tg : ToolsetGroup) (ts : Toolset) :
    ((tg.AddToolset ts).Toolsets).map Prod.fst =
      if ts.Name ∈ tg.Toolsets.map Prod.fst then tg.Toolsets.map Prod.fst
      else tg.Toolsets.map Prod.fst ++ [ts.Name] := by
  cases hr : tg.readOnly <;>
    simp [ToolsetGroup.AddToolset, hr, keys_mapInsert]

theorem keys_EnableToolset (tg : ToolsetGroup) (name : String) :
    ((tg.EnableToolset name).1).Toolsets.map Prod.fst = tg.Toolsets.map Prod.fst := by
  unfold ToolsetGroup.EnableToolset
  by_cases h : name = "all"
  · simp [h]
  · simp only [h, if_false]
    cases hl : mapLookup name tg.Toolsets with
    | none => simp
    | some ts =>
        simp [keys_mapInsert, mem_keys_of_mapLookup_eq_some hl]

theorem keys_EnableToolsets (names : List String) :
    ∀ tg : ToolsetGroup,
      ((tg.EnableToolsets names).1).Toolsets.map Prod.fst = tg.Toolsets.map Prod.fst := by
  induction names with
  | nil => intro tg; rfl
  | cons name rest ih =>
      intro tg
      rcases hE : tg.EnableToolset name with ⟨tg1, err⟩
      have hk1 : tg1.Toolsets.map Prod.fst = tg.Toolsets.map Prod.fst := by
        have := keys_EnableToolset tg name
        rw [hE] at this
        exact this
      cases err with
      | none => simp [ToolsetGroup.EnableToolsets, hE, ih tg1, hk1]
      | some e => simp [ToolsetGroup.EnableToolsets, hE, hk1]

/-! Helper lemmas about the maps the dynamic handlers build. -/

theorem featureMap_fold_lookup (f : String → Bool) (n : String) :
    ∀ (l : List (String × Toolset)) (m0 : List (String × Bool)),
      mapLookup n (l.foldl (fun m p => mapInsert p.1 (f p.1) m) m0) =
        if n ∈ l.map Prod.fst then some (f n) else mapLookup n m0 := by
  intro l
  induction l with
  | nil => intro m0; simp
  | cons p rest ih =>
      intro m0
      by_cases h2 : n ∈ rest.map Prod.fst
      · simp [List.foldl_cons, ih, h2]
      · by_cases h3 : n = p.1
        · subst h3
          rw [List.foldl_cons, ih, if_neg h2, mapLookup_mapInsert_self]
          simp
        · simp [List.foldl_cons, ih, h2, h3, mapLookup_mapInsert_ne h3]

theorem featureMap_lookup (tg : ToolsetGroup) (n : String) :
    mapLookup n (featureMap tg) =
      if n ∈ tg.Toolsets.map Prod.fst then some (tg.IsEnabled n) else none := by
  have h := featureMap_fold_lookup (fun n => tg.IsEnabled n) n tg.Toolsets []
  simpa [featureMap, mapLookup] using h

theorem buildToolMap_fold_lookup_some {n d : String} :
    ∀ (l : List ServerTool) (m0 : List (String × String)),
      mapLookup n (l.foldl (fun m st => mapInsert st.tool.name st.tool.description m) m0) =
          some d →
        (∃ st ∈ l, st.tool.name = n ∧ st.tool.description = d) ∨ mapLookup n m0 = some d := by
  intro l
  induction l with
  | nil => intro m0 h; exact Or.inr h
  | cons st rest ih =>
      intro m0 h
      rcases ih (mapInsert st.tool.name st.tool.description m0) h with h1 | h1
      · rcases h1 with ⟨st2, hmem, hn, hd⟩
        exact Or.inl ⟨st2, List.mem_cons_of_mem st hmem, hn, hd⟩
      · by_cases h3 : n = st.tool.name
        · rw [h3, mapLookup_mapInsert_self] at h1
          exact Or.inl ⟨st, List.mem_cons_self st rest, h3.symm, Option.some_inj.mp h1⟩
        · rw [mapLookup_mapInsert_ne h3] at h1
          exact Or.inr h1

theorem buildToolMap_fold_isSome (n : String) :
    ∀ (l : List ServerTool) (m0 : List (String × String)),
      (mapLookup n m0).isSome = true →
      (mapLookup n (l.foldl (fun m st => mapInsert st.tool.name st.tool.description m) m0)).isSome
        = true := by
  intro l
  induction l with
  | nil => intro m0 h; exact h
  | cons st rest ih =>
      intro m0 h
      apply ih
      by_cases h3 : n = st.tool.name
      · rw [h3, mapLookup_mapInsert_self]; rfl
      · rw [mapLookup_mapInsert_ne h3]; exact h

theorem buildToolMap_mem_isSome {st : ServerTool} :
    ∀ (l : List ServerTool) (m0 : List (String × String)), st ∈ l →
      (mapLookup st.tool.name
        (l.foldl (fun m st => mapInsert st.tool.name st.tool.description m) m0)).isSome = true := by
  intro l
  induction l with
  | nil => intro m0 h; cases h
  | cons st2 rest ih =>
      intro m0 h
      rcases List.mem_cons.mp h with h1 | h1
      · subst h1
        rw [List.foldl_cons]
        apply buildToolMap_fold_isSome
        rw [mapLookup_mapInsert_self]; rfl
      · exact ih _ h1

theorem lookup_all_EnableToolsets_fst (tg : ToolsetGroup) (ps : List String)
    (h0 : mapLookup "all" tg.Toolsets = none) :
    mapLookup "all" ((tg.EnableToolsets ps).1).Toolsets = none := by
  rw [mapLookup_eq_none_iff] at h0 ⊢
  rw [keys_EnableToolsets]
  exact h0

/-- Any group a successful InitToolsets yields has no toolset keyed "all":
every registered name is one of the eight fixed names, and enabling never
adds keys. -/
theorem lookupAll_of_initToolsets
    (ctxR : List ServerTool) (repoT : List ResourceTemplate)
    (repoR repoW issR issW schR prR prW csR dynR : List ServerTool)
    (ps : List String) (ro : Bool) (tsg : ToolsetGroup)
    (h : InitToolsets ctxR repoT repoR repoW issR issW schR prR prW csR dynR ps ro =
      Except.ok tsg) :
    mapLookup "all" tsg.Toolsets = none := by
  simp only [InitToolsets] at h
  split at h
  · rename_i tsg1 heq
    injection h with h2
    subst h2
    have hk := congrArg (fun q => q.1.Toolsets.map Prod.fst) heq
    simp only at hk
    rw [keys_EnableToolsets] at hk
    rw [mapLookup_eq_none_iff, ← hk, ← mapLookup_eq_none_iff]
    rw [lookup_AddToolset_ne _ _ _ (by simp)]
    rw [lookup_AddToolset_ne _ _ _ (by simp)]
    rw [lookup_AddToolset_ne _ _ _ (by simp)]
    rw [lookup_AddToolset_ne _ _ _ (by simp)]
    rw [lookup_AddToolset_ne _ _ _ (by simp)]
    rw [lookup_AddToolset_ne _ _ _ (by simp)]
    rw [lookup_AddToolset_ne _ _ _ (by simp)]
    rw [lookup_AddToolset_ne _ _ _ (by simp)]
    rfl
  · rename_i tg1 e heq
    exact Except.noConfusion h

theorem applyOps_readOnly_writeTools_empty :
    ∀ (ops : List ToolsetOp) (t : Toolset), t.readOnly = true → t.writeTools = [] →
      (t.applyOps ops).writeTools = [] := by
  intro ops
  induction ops with
  | nil => intro t h he; exact he
  | cons op rest ih =>
      intro t h he
      cases op with
      | addRead tools =>
          exact ih _ (by simp [Toolset.applyOp, Toolset.AddReadTools, h])
            (by simp [Toolset.applyOp, Toolset.AddReadTools, he])
      | addWrite tools =>
          exact ih _ (by simp [Toolset.applyOp, Toolset.AddWriteTools, h])
            (by simp [Toolset.applyOp, Toolset.AddWriteTools, h, he])
      | addTemplates resources =>
          exact ih _ (by simp [Toolset.applyOp, Toolset.AddTemplateResources, h])
            (by simp [Toolset.applyOp, Toolset.AddTemplateResources, he])
      | setReadOnly =>
          exact ih _ (by simp [Toolset.applyOp, Toolset.SetReadOnly])
            (by simp [Toolset.applyOp, Toolset.SetReadOnly, he])

/-- C1 (counterexample): the claim "whenever readOnly is true the
writeCapabilities sequence is empty ... regardless of the order in which
AddWriteTools and SetReadOnly are called" is false on the code: adding a
write tool first and marking read-only afterwards leaves a read-only toolset
with a non-empty write-tool sequence (SetReadOnly does not clear it). -/
theorem c1_order_counterexample :
    (((NewToolset "t" "d").AddWriteTools [wTool]).SetReadOnly).readOnly = true ∧
    (((NewToolset "t" "d").AddWriteTools [wTool]).SetReadOnly).writeTools = [wTool] := by
  constructor <;> rfl

/-- C1 (amended): on a read-only Toolset, AddWriteTools leaves the
write-capability sequence unchanged (enforced at mutation time); hence a
toolset that is read-only while its write-capability sequence is empty keeps
it empty under every further sequence of mutator calls. Emptiness is NOT
guaranteed when SetReadOnly follows earlier AddWriteTools calls. -/
theorem addWriteTools_readOnly_noop (t : Toolset) (h : t.readOnly = true) :
    (∀ ws, (t.AddWriteTools ws).writeTools = t.writeTools) ∧
    (t.writeTools = [] → ∀ ops, (t.applyOps ops).writeTools = []) := by
  constructor
  · intro ws
    simp [Toolset.AddWriteTools, h]
  · intro he ops
    exact applyOps_readOnly_writeTools_empty ops t h he

/-- C1 witness: a concrete read-only toolset with empty write tools; applying
a mutator sequence that tries to add a write tool leaves it empty. -/
theorem addWriteTools_readOnly_noop_witness :
    ((NewToolset "a" "b").SetReadOnly).readOnly = true ∧
    ((NewToolset "a" "b").SetReadOnly).writeTools = [] ∧
    (((NewToolset "a" "b").SetReadOnly).applyOps
      [ToolsetOp.addWrite [wTool], ToolsetOp.setReadOnly,
       ToolsetOp.addWrite [wTool, rTool]]).writeTools = [] :=
  ⟨by decide, by decide,
    (addWriteTools_readOnly_noop ((NewToolset "a" "b").SetReadOnly) (by decide)).2 (by decide)
      [ToolsetOp.addWrite [wTool], ToolsetOp.setReadOnly,
       ToolsetOp.addWrite [wTool, rTool]]⟩

/-- C2: GetActiveTools is empty whenever Enabled is false regardless of
readOnly; equals readTools (order preserved) when enabled and read-only;
equals readTools followed by writeTools when enabled and not read-only. -/
theorem getActiveTools_spec (t : Toolset) :
    (t.Enabled = false → t.GetActiveTools = []) ∧
    (t.Enabled = true → t.readOnly = true → t.GetActiveTools = t.readTools) ∧
    (t.Enabled = true → t.readOnly = false → t.GetActiveTools = t.readTools ++ t.writeTools) := by
  refine ⟨?_, ?_, ?_⟩
  · intro h1; simp [Toolset.GetActiveTools, h1]
  · intro h1 h2; simp [Toolset.GetActiveTools, h1, h2]
  · intro h1 h2; simp [Toolset.GetActiveTools, h1, h2]

/-- C2 witness: the disabled and the enabled read-only cases at concrete
toolsets. -/
theorem getActiveTools_spec_witness :
    ts0.Enabled = false ∧ ts0.GetActiveTools = [] ∧
    ts1.Enabled = true ∧ ts1.readOnly = false ∧
    ts1.GetActiveTools = ts1.readTools ++ ts1.writeTools :=
  ⟨by decide, (getActiveTools_spec ts0).1 (by decide), by decide, by decide,
    (getActiveTools_spec ts1).2.2 (by decide) (by decide)⟩

/-- C3: on a known toolset name, the enable-toolset handler is idempotent at
the message level: already-enabled returns the distinct message with no state
change and no registration; on a disabled toolset the first call returns
"enabled", pushes exactly the active tools once via the bulk AddTools
primitive, and the second call returns "already enabled" leaving server and
group untouched, so the tools are registered exactly once across both
calls. -/
theorem enableToolsetHandler_idempotent (s : MCPServer) (tg : ToolsetGroup)
    (name : String) (ts : Toolset) (h : mapLookup name tg.Toolsets = some ts) :
    (ts.Enabled = true →
      EnableToolsetHandler s tg name =
        (NewToolResultText ("Toolset " ++ name ++ " is already enabled"), s, tg)) ∧
    (ts.Enabled = false →
      EnableToolsetHandler s tg name =
        (NewToolResultText ("Toolset " ++ name ++ " enabled"),
          s.AddTools ({ ts with Enabled := true }).GetActiveTools,
          { tg with Toolsets := mapInsert name { ts with Enabled := true } tg.Toolsets }) ∧
      (s.AddTools ({ ts with Enabled := true }).GetActiveTools).tools =
        s.tools ++ ({ ts with Enabled := true }).GetActiveTools ∧
      EnableToolsetHandler (s.AddTools ({ ts with Enabled := true }).GetActiveTools)
          { tg with Toolsets := mapInsert name { ts with Enabled := true } tg.Toolsets } name =
        (NewToolResultText ("Toolset " ++ name ++ " is already enabled"),
          s.AddTools ({ ts with Enabled := true }).GetActiveTools,
          { tg with Toolsets := mapInsert name { ts with Enabled := true } tg.Toolsets })) := by
  constructor
  · intro he
    simp [EnableToolsetHandler, h, he]
  · intro he
    refine ⟨?_, ?_, ?_⟩
    · simp [EnableToolsetHandler, h, he]
    · simp [MCPServer.AddTools]
    · simp [EnableToolsetHandler, mapLookup_mapInsert_self]

/-- C3 witness: the two-call scenario on a concrete group with one disabled
toolset. -/
theorem enableToolsetHandler_idempotent_witness :
    mapLookup "t1" tg0.Toolsets = some ts0 ∧
    (EnableToolsetHandler s0 tg0 "t1" =
        (NewToolResultText "Toolset t1 enabled", s1, tg1) ∧
      s1.tools = s0.tools ++ ts1.GetActiveTools ∧
      EnableToolsetHandler s1 tg1 "t1" =
        (NewToolResultText "Toolset t1 is already enabled", s1, tg1)) :=
  ⟨by decide,
    (enableToolsetHandler_idempotent s0 tg0 "t1" ts0 (by decide)).2 (by decide)⟩

/-- C4: for a name other than the sentinel "all", group-level EnableToolset
fails exactly when the name is absent, leaves the group untouched on that
failure, and on a present name succeeds and flips that toolset to
enabled. -/
theorem enableToolset_notFound_frame (tg : ToolsetGroup) (name : String)
    (hne : name ≠ "all") :
    ((tg.EnableToolset name).2.isSome = true ↔ mapLookup name tg.Toolsets = none) ∧
    (mapLookup name tg.Toolsets = none →
      tg.EnableToolset name = (tg, some ("toolset " ++ name ++ " does not exist"))) ∧
    (∀ ts, mapLookup name tg.Toolsets = some ts →
      (tg.EnableToolset name).2 = none ∧
      (tg.EnableToolset name).1 =
        { tg with Toolsets := mapInsert name { ts with Enabled := true } tg.Toolsets } ∧
      mapLookup name ((tg.EnableToolset name).1).Toolsets = some { ts with Enabled := true }) := by
  refine ⟨?_, ?_, ?_⟩
  · cases hl : mapLookup name tg.Toolsets with
    | none => simp [ToolsetGroup.EnableToolset, hne, hl]
    | some ts => simp [ToolsetGroup.EnableToolset, hne, hl]
  · intro hl
    simp [ToolsetGroup.EnableToolset, hne, hl]
  · intro ts hl
    simp [ToolsetGroup.EnableToolset, hne, hl, mapLookup_mapInsert_self]

/-- C4 witness: an unknown name on a concrete group fails and leaves the
group identical; the known name succeeds. -/
theorem enableToolset_notFound_frame_witness :
    ("missing" ≠ "all") ∧
    (tg0.EnableToolset "missing").2.isSome = true ∧
    (tg0.EnableToolset "missing") = (tg0, some "toolset missing does not exist") ∧
    mapLookup "t1" ((tg0.EnableToolset "t1").1).Toolsets = some ts1 := by
  have hmiss := enableToolset_notFound_frame tg0 "missing" (by decide)
  have hhit := enableToolset_notFound_frame tg0 "t1" (by decide)
  refine ⟨by decide, hmiss.1.mpr (by decide), ?_, ?_⟩
  · exact hmiss.2.1 (by decide)
  · exact (hhit.2.2 ts0 (by decide)).2.2

/-- C5: IsEnabled returns true for every name once everythingOn holds —
including names absent from the mapping and toolsets added afterwards —
otherwise it returns the named toolset's Enabled flag, and false (not an
error) on an absent name. -/
theorem isEnabled_spec (tg : ToolsetGroup) (name name2 : String) (ts : Toolset) :
    (tg.everythingOn = true → tg.IsEnabled name = true) ∧
    (tg.everythingOn = false → mapLookup name tg.Toolsets = none →
      tg.IsEnabled name = false) ∧
    (tg.everythingOn = false → ∀ f, mapLookup name tg.Toolsets = some f →
      tg.IsEnabled name = f.Enabled) ∧
    (((tg.EnableToolset "all").1.AddToolset ts).IsEnabled name2 = true) := by
  refine ⟨?_, ?_, ?_, ?_⟩
  · intro h; simp [ToolsetGroup.IsEnabled, h]
  · intro h hl; simp [ToolsetGroup.IsEnabled, h, hl]
  · intro h f hl; simp [ToolsetGroup.IsEnabled, h, hl]
  · cases hr : ((tg.EnableToolset "all").1).readOnly <;>
      simp [ToolsetGroup.EnableToolset, ToolsetGroup.AddToolset, ToolsetGroup.IsEnabled, hr]

/-- C5 witness: everythingOn override on a concrete group, an absent name
degrading to false, and a toolset added after enabling "all" reporting
enabled under a name never registered. -/
theorem isEnabled_spec_witness :
    tg0.everythingOn = false ∧ mapLookup "ghost" tg0.Toolsets = none ∧
    tg0.IsEnabled "ghost" = false ∧
    (((tg0.EnableToolset "all").1.AddToolset (NewToolset "late" "d")).IsEnabled "phantom"
      = true) :=
  ⟨by decide, by decide,
    (isEnabled_spec tg0 "ghost" "phantom" (NewToolset "late" "d")).2.1 (by decide) (by decide),
    (isEnabled_spec tg0 "ghost" "phantom" (NewToolset "late" "d")).2.2.2⟩

/-- C6: the get-toolset-tools handler yields an error-flagged result
"Toolset name not found" on an absent name; on a known toolset it
yields a success result whose payload serializes the mapping from each
active capability identifier to its description computed from
GetActiveTools, so an existing but disabled toolset yields the empty
object rather than an error. -/
theorem getToolsetsTools_spec (tg : ToolsetGroup) (name : String) :
    (mapLookup name tg.Toolsets = none →
      GetToolsetsToolsHandler tg name =
        NewToolResultError ("Toolset " ++ name ++ " not found")) ∧
    (∀ ts, mapLookup name tg.Toolsets = some ts →
      GetToolsetsToolsHandler tg name =
        NewToolResultText (jsonOfStringMap (sortByKey (buildToolMap ts.GetActiveTools))) ∧
      (∀ n d, mapLookup n (buildToolMap ts.GetActiveTools) = some d →
        ∃ st ∈ ts.GetActiveTools, st.tool.name = n ∧ st.tool.description = d) ∧
      (∀ st ∈ ts.GetActiveTools,
        (mapLookup st.tool.name (buildToolMap ts.GetActiveTools)).isSome = true) ∧
      (ts.Enabled = false →
        GetToolsetsToolsHandler tg name = NewToolResultText "\x7b\x7d")) := by
  constructor
  · intro hl
    simp [GetToolsetsToolsHandler, hl]
  · intro ts hl
    refine ⟨?_, ?_, ?_, ?_⟩
    · simp [GetToolsetsToolsHandler, hl]
    · intro n d hmap
      rcases buildToolMap_fold_lookup_some ts.GetActiveTools [] hmap with h1 | h1
      · exact h1
      · exact absurd h1 (by simp [mapLookup])
    · intro st hst
      exact buildToolMap_mem_isSome ts.GetActiveTools [] hst
    · intro he
      simp [GetToolsetsToolsHandler, hl, Toolset.GetActiveTools, he, buildToolMap,
        sortByKey, jsonOfStringMap]
      rfl

/-- C6 witness: an unknown name errors; the known but disabled toolset yields
the empty JSON object. -/
theorem getToolsetsTools_spec_witness :
    mapLookup "nope" tg0.Toolsets = none ∧
    GetToolsetsToolsHandler tg0 "nope" = NewToolResultError "Toolset nope not found" ∧
    mapLookup "t1" tg0.Toolsets = some ts0 ∧ ts0.Enabled = false ∧
    GetToolsetsToolsHandler tg0 "t1" = NewToolResultText "\x7b\x7d" :=
  ⟨by decide, (getToolsetsTools_spec tg0 "nope").1 (by decide), by decide, by decide,
    ((getToolsetsTools_spec tg0 "t1").2 ts0 (by decide)).2.2.2 (by decide)⟩

/-- C8: the list-available-toolsets handler always succeeds, its payload maps
every known toolset name — and no other — to its IsEnabled value (which
honours the everythingOn override), and an empty group yields the empty JSON
object. -/
theorem listAvailableToolsets_spec (tg : ToolsetGroup) (n : String) :
    (ListAvailableToolsetsHandler tg).isError = false ∧
    ListAvailableToolsetsHandler tg =
      NewToolResultText (jsonOfBoolMap (sortByKey (featureMap tg))) ∧
    (mapLookup n (featureMap tg) =
      if n ∈ tg.Toolsets.map Prod.fst then some (tg.IsEnabled n) else none) ∧
    (tg.Toolsets = [] → (ListAvailableToolsetsHandler tg).text = "\x7b\x7d") := by
  refine ⟨rfl, rfl, featureMap_lookup tg n, ?_⟩
  intro h
  simp [ListAvailableToolsetsHandler, featureMap, h, sortByKey, jsonOfBoolMap,
    NewToolResultText]
  rfl

/-- C8 witness: the empty group yields exactly the empty JSON object, with no
error flag. -/
theorem listAvailableToolsets_spec_witness :
    (ListAvailableToolsetsHandler (NewToolsetGroup false)).isError = false ∧
    (ListAvailableToolsetsHandler (NewToolsetGroup false)).text = "\x7b\x7d" :=
  ⟨(listAvailableToolsets_spec (NewToolsetGroup false) "x").1,
    (listAvailableToolsets_spec (NewToolsetGroup false) "x").2.2.2 rfl⟩

/-- C9: RegisterTools is a no-op on a disabled toolset; on an enabled one it
pushes every read tool in order, then the write tools only when not
read-only, then every resource template regardless of readOnly, each through
the single-item registration primitives. -/
theorem registerTools_spec (t : Toolset) (s : MCPServer) :
    (t.Enabled = false → t.RegisterTools s = s) ∧
    (t.Enabled = true → t.readOnly = true →
      t.RegisterTools s =
        { tools := s.tools ++ t.readTools,
          resourceTemplates := s.resourceTemplates ++ t.resourceTemplates }) ∧
    (t.Enabled = true → t.readOnly = false →
      t.RegisterTools s =
        { tools := s.tools ++ t.readTools ++ t.writeTools,
          resourceTemplates := s.resourceTemplates ++ t.resourceTemplates }) := by
  refine ⟨?_, ?_, ?_⟩
  · intro h
    simp [Toolset.RegisterTools, h]
  · intro h hr
    simp [Toolset.RegisterTools, h, hr, foldl_AddTool, foldl_AddResourceTemplate]
  · intro h hr
    simp [Toolset.RegisterTools, h, hr, foldl_AddTool, foldl_AddResourceTemplate]

/-- C9 witness: a concrete enabled read/write toolset lands its read tools,
write tools and resource template on an empty server in order; a disabled
toolset leaves the server untouched. -/
theorem registerTools_spec_witness :
    ts0.Enabled = false ∧ ts0.RegisterTools s0 = s0 ∧
    tsR.Enabled = true ∧ tsR.readOnly = false ∧
    tsR.RegisterTools s0 =
      { tools := s0.tools ++ tsR.readTools ++ tsR.writeTools,
        resourceTemplates := s0.resourceTemplates ++ tsR.resourceTemplates } :=
  ⟨by decide, (registerTools_spec ts0 s0).1 (by decide), by decide, by decide,
    (registerTools_spec tsR s0).2.2 (by decide) (by decide)⟩

/-- C7 (counterexample): AddToolset performs no validation against the
reserved sentinel: adding a toolset named "all" stores it under the key
"all", so the claimed registration-time check does not exist in the code. -/
theorem addToolset_all_counterexample :
    mapLookup "all" ((NewToolsetGroup false).AddToolset (NewToolset "all" "collides")).Toolsets
      = some (NewToolset "all" "collides") := by
  decide

/-- C7 (amended): AddToolset itself never validates the sentinel, but under
the InitToolsets configuration no registered toolset is named "all", and
enabling never adds keys, so every group a successful InitToolsets yields has
the key "all" absent from its mapping. -/
theorem initToolsets_all_absent
    (ctxR : List ServerTool) (repoT : List ResourceTemplate)
    (repoR repoW issR issW schR prR prW csR dynR : List ServerTool)
    (ps : List String) (ro : Bool) (tsg : ToolsetGroup)
    (h : InitToolsets ctxR repoT repoR repoW issR issW schR prR prW csR dynR ps ro =
      Except.ok tsg) :
    mapLookup "all" tsg.Toolsets = none :=
  lookupAll_of_initToolsets ctxR repoT repoR repoW issR issW schR prR prW csR dynR ps ro tsg h

/-- C7 witness: the concrete InitToolsets instance with empty collaborator
lists succeeds and its group has no toolset keyed "all". -/
theorem initToolsets_all_absent_witness :
    InitToolsets [] [] [] [] [] [] [] [] [] [] [] [] false = Except.ok gInit ∧
    mapLookup "all" gInit.Toolsets = none :=
  ⟨rfl, initToolsets_all_absent [] [] [] [] [] [] [] [] [] [] [] [] false gInit rfl⟩

/-- C10: the dynamic enable-toolset handler never touches everythingOn, the
group read-only policy, or the key set; it changes at most the named
toolset's Enabled flag; and since it does not recognize the "all" sentinel,
on any group a successful InitToolsets yields (none of whose toolsets is
named "all") a request for "all" returns the error result
"Toolset all not found" with server and group unchanged. -/
theorem enableToolsetHandler_frame (s : MCPServer) (tg : ToolsetGroup) (name : String) :
    ((EnableToolsetHandler s tg name).2.2.everythingOn = tg.everythingOn) ∧
    ((EnableToolsetHandler s tg name).2.2.readOnly = tg.readOnly) ∧
    ((EnableToolsetHandler s tg name).2.2.Toolsets.map Prod.fst =
      tg.Toolsets.map Prod.fst) ∧
    (∀ n, n ≠ name →
      mapLookup n (EnableToolsetHandler s tg name).2.2.Toolsets =
        mapLookup n tg.Toolsets) ∧
    (∀ ts, mapLookup name (EnableToolsetHandler s tg name).2.2.Toolsets = some ts →
      mapLookup name tg.Toolsets = some ts ∨
      ∃ ts0, mapLookup name tg.Toolsets = some ts0 ∧ ts = { ts0 with Enabled := true }) ∧
    (∀ (ctxR : List ServerTool) (repoT : List ResourceTemplate)
        (repoR repoW issR issW schR prR prW csR dynR : List ServerTool)
        (ps : List String) (ro : Bool) (tsg : ToolsetGroup),
      InitToolsets ctxR repoT repoR repoW issR issW schR prR prW csR dynR ps ro =
          Except.ok tsg →
      EnableToolsetHandler s tsg "all" =
        (NewToolResultError "Toolset all not found", s, tsg)) := by
  have hmain :
      ((EnableToolsetHandler s tg name).2.2.everythingOn = tg.everythingOn) ∧
      ((EnableToolsetHandler s tg name).2.2.readOnly = tg.readOnly) ∧
      ((EnableToolsetHandler s tg name).2.2.Toolsets.map Prod.fst =
        tg.Toolsets.map Prod.fst) ∧
      (∀ n, n ≠ name →
        mapLookup n (EnableToolsetHandler s tg name).2.2.Toolsets =
          mapLookup n tg.Toolsets) ∧
      (∀ ts, mapLookup name (EnableToolsetHandler s tg name).2.2.Toolsets = some ts →
        mapLookup name tg.Toolsets = some ts ∨
        ∃ ts0, mapLookup name tg.Toolsets = some ts0 ∧ ts = { ts0 with Enabled := true }) := by
    cases hl : mapLookup name tg.Toolsets with
    | none =>
        refine ⟨?_, ?_, ?_, ?_, ?_⟩ <;> simp [EnableToolsetHandler, hl]
    | some ts =>
        cases he : ts.Enabled with
        | true =>
            refine ⟨?_, ?_, ?_, ?_, ?_⟩ <;> simp [EnableToolsetHandler, hl, he]
        | false =>
            refine ⟨?_, ?_, ?_, ?_, ?_⟩
            · simp [EnableToolsetHandler, hl, he]
            · simp [EnableToolsetHandler, hl, he]
            · simp [EnableToolsetHandler, hl, he, keys_mapInsert,
                mem_keys_of_mapLookup_eq_some hl]
            · intro n hn
              simp [EnableToolsetHandler, hl, he, mapLookup_mapInsert_ne hn]
            · intro ts2 hl2
              simp [EnableToolsetHandler, hl, he, mapLookup_mapInsert_self] at hl2
              exact Or.inr ⟨ts, rfl, hl2.symm⟩
  refine ⟨hmain.1, hmain.2.1, hmain.2.2.1, hmain.2.2.2.1, hmain.2.2.2.2, ?_⟩
  intro ctxR repoT repoR repoW issR issW schR prR prW csR dynR ps ro tsg hinit
  have hall := lookupAll_of_initToolsets ctxR repoT repoR repoW issR issW schR prR prW csR dynR
    ps ro tsg hinit
  simp [EnableToolsetHandler, hall]

/-- C10 witness: on the concrete InitToolsets group, requesting "all" yields
the not-found error result and leaves the server and the group unchanged. -/
theorem enableToolsetHandler_frame_witness :
    InitToolsets [] [] [] [] [] [] [] [] [] [] [] [] false = Except.ok gInit ∧
    EnableToolsetHandler s0 gInit "all" =
      (NewToolResultError "Toolset all not found", s0, gInit) :=
  ⟨rfl,
    (enableToolsetHandler_frame s0 gInit "all").2.2.2.2.2
      [] [] [] [] [] [] [] [] [] [] [] [] false gInit rfl⟩
